import Mathlib

/-!
Verification model of src/main.py from the detect-art-format repository.

Python floats are modeled as exact rationals.  The rounding
round(dpi_min, 1) whose result the decision rule consumes is modeled by
round1; the purely cosmetic rounding of the remaining JSON record fields
is not, those values are kept exact.  Rectangle semantics follow the
fitz (PyMuPDF) Rect class: the area of an empty or inverted rectangle is
zero, which is expressed here as max 0 (x1 - x0) * max 0 (y1 - y0), and
intersect is coordinate-wise max and min.  For empty operands the real
library substitutes one of the operands instead, but the area of the
result is zero in exactly the same cases, and downstream code only ever
consumes areas (and the width and height of positive-area intersections,
where the two renderings agree).
-/

namespace DetectArt

/-- Axis-aligned rectangle in page coordinates, as stored by fitz.Rect:
coordinates are kept as given, with no normalization on construction, so
x1 less than x0 is representable. -/
structure Rect where
  x0 : ℚ
  y0 : ℚ
  x1 : ℚ
  y1 : ℚ
deriving DecidableEq

/-- fitz Rect.width: zero for an inverted rectangle. -/
def Rect.width (r : Rect) : ℚ := max 0 (r.x1 - r.x0)

/-- fitz Rect.height: zero for an inverted rectangle. -/
def Rect.height (r : Rect) : ℚ := max 0 (r.y1 - r.y0)

/-- fitz Rect.get_area: zero when the rectangle is empty, else width times
height. -/
def Rect.get_area (r : Rect) : ℚ := r.width * r.height

/-- fitz Rect.is_empty: x0 at least x1, or y0 at least y1. -/
def Rect.is_empty (r : Rect) : Prop := r.x1 ≤ r.x0 ∨ r.y1 ≤ r.y0

instance (r : Rect) : Decidable r.is_empty := by
  unfold Rect.is_empty; infer_instance

/-- fitz Rect.intersect on non-empty operands: coordinate-wise max and min. -/
def Rect.intersect (r s : Rect) : Rect :=
  ⟨max r.x0 s.x0, max r.y0 s.y0, min r.x1 s.x1, min r.y1 s.y1⟩

/-- fitz Rect.intersects: both rectangles non-empty and the intersection
non-empty. -/
def Rect.intersects (r s : Rect) : Prop :=
  ¬r.is_empty ∧ ¬s.is_empty ∧ ¬(r.intersect s).is_empty

instance (r s : Rect) : Decidable (r.intersects s) := by
  unfold Rect.intersects; infer_instance

/-- Falsiness of a fitz geometry object: bool of a Rect is False exactly
when all four components are zero, per the operator algebra of the
library.  The truthiness guards of the source compare against this, not
against emptiness. -/
def Rect.is_zero (r : Rect) : Prop := r.x0 = 0 ∧ r.y0 = 0 ∧ r.x1 = 0 ∧ r.y1 = 0

instance (r : Rect) : Decidable r.is_zero := by
  unfold Rect.is_zero; infer_instance

/-- One entry of page.get_drawings, reduced to the fields the analysis
reads: the optional bounding rect (key rect), the lowercased string form
of the first element of each path item tuple, the stroke width as
float(d.get width or 0), and whether the fill entry is not None. -/
structure Drawing where
  rect : Option Rect
  items : List String
  width : ℚ
  fill : Bool
deriving DecidableEq

/-- One entry of page.get_images full=True, reduced to the xref (index 0
of the tuple; 0 is falsy and skipped) and the placement bbox; bbox is
none when page.get_image_bbox raises for both call forms, which the
source recovers from by skipping the image. -/
structure Image where
  xref : ℕ
  bbox : Option Rect
deriving DecidableEq

/-- One entry of page.get_text blocks: the bounding rect built from the
first four tuple fields and the block type from field six (0 for text). -/
structure TextBlock where
  rect : Rect
  btype : ℤ
deriving DecidableEq

/-- The read-only page content the analysis consumes. -/
structure Page where
  rect : Rect
  images : List Image
  drawings : List Drawing
  blocks : List TextBlock
deriving DecidableEq

/-- Request payload fields read by rect_from_params.  A coordinate field
is none when it is absent from the form data or when float() would raise
on it; coordsOrigin holds the tag string already passed through the
lower() call of the source when present. -/
structure Params where
  coordsOrigin : Option String
  x : Option ℚ
  y : Option ℚ
  width : Option ℚ
  height : Option ℚ
deriving DecidableEq

/-- bottom_half_rect, src/main.py lines 22 to 24. -/
def bottom_half_rect (page : Page) : Rect :=
  let r := page.rect
  ⟨r.x0, r.y0 + r.height / 2, r.x1, r.y1⟩

/-- rect_from_params, src/main.py lines 26 to 40.  The data argument is
none when the form payload is absent or empty (falsy in the source); any
missing or non-numeric coordinate field lands in the fallback branch,
matching the except clause of the source. -/
def rect_from_params (page : Page) (data : Option Params) : Rect :=
  match data with
  | none => bottom_half_rect page
  | some d =>
    if d.coordsOrigin.getD "" ≠ "pdf" then bottom_half_rect page
    else
      match d.x, d.y, d.width, d.height with
      | some x, some y, some w, some h =>
        let pr := page.rect
        ⟨max pr.x0 x, max pr.y0 y, min pr.x1 (x + w), min pr.y1 (y + h)⟩
      | _, _, _, _ => bottom_half_rect page

/-- The recognized path operator tags of count_vector_segments_in. -/
def seg_ops : List String := ["m", "l", "c", "v", "y", "h", "re"]

/-- Inner item loop of count_vector_segments_in, src/main.py lines 66 to
73: one unit per recognized path operator, skipping every operator of an
unfilled drawing whose stroke width is at most 0.25. -/
def recognized_count (d : Drawing) : ℕ :=
  (d.items.filter fun op =>
    decide (op ∈ seg_ops) && !(!d.fill && decide (d.width ≤ 1/4))).length

/-- count_vector_segments_in, src/main.py lines 42 to 74.  The two skip
guards of the source are truthiness tests on the rect variable, so each
applies only when the drawing has a bounding rect that is not the
all-zero rect: a drawing whose bbox is Rect 0 0 0 0, like one with no
bbox at all, is never skipped and has its operators counted. -/
def count_vector_segments_in (page : Page) (clip : Rect) : ℕ :=
  page.drawings.foldl
    (fun segs d =>
      match d.rect with
      | some rct =>
        if ¬rct.is_zero ∧ ¬rct.intersects clip then segs
        else if ¬rct.is_zero ∧
            (15/100 ≤ (rct.intersect clip).get_area / max 1 clip.get_area ∧
              d.items.length < 8) then segs
        else segs + recognized_count d
      | none => segs + recognized_count d)
    0

/-- sum_raster_coverage_in_clip, src/main.py lines 76 to 98; returns the
pair of total intersection area and coverage fraction. -/
def sum_raster_coverage_in_clip (page : Page) (clip : Rect) : ℚ × ℚ :=
  let clip_area := max 1 clip.get_area
  let total := page.images.foldl
    (fun tot img =>
      if img.xref = 0 then tot
      else
        match img.bbox with
        | none => tot
        | some bbox => tot + (bbox.intersect clip).get_area)
    0
  (total, min 1 (total / clip_area))

/-- text_coverage_in_clip, src/main.py lines 100 to 115. -/
def text_coverage_in_clip (page : Page) (clip : Rect) : ℚ :=
  let clip_area := max 1 clip.get_area
  let total := page.blocks.foldl
    (fun tot b =>
      if b.btype ≠ 0 then tot else tot + (b.rect.intersect clip).get_area)
    0
  min 1 (total / clip_area)

/-- Weight chain of drawings_coverage_in_clip, src/main.py lines 139 to
150, applied to a drawing and its intersection fraction of the clip. -/
def drawing_weight (d : Drawing) (frac : ℚ) : ℚ :=
  if ("re" ∈ d.items ∧ 15/100 ≤ frac) ∨
      (d.fill = true ∧ d.width ≤ 1/4 ∧ d.items.length ≤ 5 ∧ 15/100 ≤ frac) then 5/100
  else if "re" ∈ d.items then 15/100
  else 30/100

/-- drawings_coverage_in_clip, src/main.py lines 117 to 152. -/
def drawings_coverage_in_clip (page : Page) (clip : Rect) : ℚ :=
  let clip_area := max 1 clip.get_area
  let weighted_area := page.drawings.foldl
    (fun acc d =>
      if d.width ≤ 1/4 ∧ d.fill = false then acc
      else
        match d.rect with
        | none => acc
        | some rct =>
          let inter_area := (rct.intersect clip).get_area
          if inter_area ≤ 0 then acc
          else acc + inter_area * drawing_weight d (inter_area / clip_area))
    0
  min 1 (weighted_area / clip_area)

/-- Loop body of find_largest_image_in_clip: keep the candidate with the
strictly largest intersection area seen so far. -/
def flic_step (clip : Rect) (acc : Option (ℕ × Rect × Rect) × ℚ) (img : Image) :
    Option (ℕ × Rect × Rect) × ℚ :=
  if img.xref = 0 then acc
  else
    match img.bbox with
    | none => acc
    | some bbox =>
      let inter := bbox.intersect clip
      let a := inter.get_area
      if acc.2 < a then (some (img.xref, inter, bbox), a) else acc

/-- find_largest_image_in_clip, src/main.py lines 154 to 177. -/
def find_largest_image_in_clip (page : Page) (clip : Rect) :
    Option (ℕ × Rect × Rect) :=
  (page.images.foldl (flic_step clip) (none, 0)).1

/-- decide_format_coverage, src/main.py lines 179 to 210. -/
def decide_format_coverage (raster_cov vector_cov : ℚ)
    (vector_segments raster_count : ℕ) (text_cov : ℚ)
    (native_dpi_min : ℚ) : String :=
  if raster_cov ≤ 2/100 ∧ (3/100 ≤ vector_cov ∨ 25/1000 ≤ text_cov ∨
      raster_count = 0 ∨ 20 ≤ vector_segments) then "has vector"
  else if vector_cov + 1/100 ≤ raster_cov then "has raster"
  else if raster_cov + 12/100 ≤ vector_cov then "has vector"
  else if 15/100 ≤ raster_cov ∧ vector_cov ≤ 30/100 then "has raster"
  else if raster_cov ≤ 3/100 ∧ 40 ≤ vector_segments then "has vector"
  else if 18 ≤ vector_segments ∧ native_dpi_min ≠ 0 ∧ native_dpi_min < 40 ∧
      10/100 ≤ raster_cov then "has vector"
  else "has raster"

/-- The native raster sub-record of the metrics. -/
structure NativeInfo where
  nativePxW : ℕ
  nativePxH : ℕ
  placedWIn : ℚ
  placedHIn : ℚ
  nativeDpiX : ℚ
  nativeDpiY : ℚ
  nativeDpiMin : ℚ
deriving DecidableEq

/-- Body of the native resolution block for the found largest image,
src/main.py lines 250 to 272: the extract argument models
doc.extract_image, with none for a decode failure, which the source
recovers from by leaving the native pixel dimensions at zero. -/
def native_info_of (extract : ℕ → Option (ℕ × ℕ)) (xref : ℕ)
    (inter_rect : Rect) : NativeInfo :=
  let wh := if xref ≠ 0 then (extract xref).getD (0, 0) else (0, 0)
  let native_px_w := wh.1
  let native_px_h := wh.2
  let placed_w_in := if inter_rect.width ≠ 0 then inter_rect.width / 72 else 0
  let placed_h_in := if inter_rect.height ≠ 0 then inter_rect.height / 72 else 0
  let dpi_x := if 0 < placed_w_in then (native_px_w : ℚ) / placed_w_in else 0
  let dpi_y := if 0 < placed_h_in then (native_px_h : ℚ) / placed_h_in else 0
  let dpi_min := if dpi_x ≠ 0 ∧ dpi_y ≠ 0 then min dpi_x dpi_y else 0
  ⟨native_px_w, native_px_h, placed_w_in, placed_h_in, dpi_x, dpi_y, dpi_min⟩

/-- Native resolution block of the detect-art-format route, src/main.py
lines 247 to 272: absent when no image intersects the clip with positive
area. -/
def native_raster_metrics (extract : ℕ → Option (ℕ × ℕ)) (page : Page)
    (clip : Rect) : Option NativeInfo :=
  match find_largest_image_in_clip page clip with
  | none => none
  | some (xref, inter_rect, _) => some (native_info_of extract xref inter_rect)

/-- Rounding half to even of a rational to an integer: the semantics of
Python round applied to an exact value. -/
def round_half_even (q : ℚ) : ℤ :=
  let n := ⌊q⌋
  if q - n < 1/2 then n
  else if 1/2 < q - n then n + 1
  else if Even n then n else n + 1

/-- Python round(x, 1) on an exact rational.  The route stores
round(dpi_min, 1) in the native record, src/main.py line 271, and the
decision rule consumes that stored value, line 280. -/
def round1 (x : ℚ) : ℚ := (round_half_even (10 * x) : ℚ) / 10

/-- The scalar metrics the route reports and feeds to the decision rule. -/
structure Metrics where
  rasterCount : ℕ
  rasterCoverage : ℚ
  textCoverage : ℚ
  drawingsCoverage : ℚ
  effectiveVectorCoverage : ℚ
  vectorSegments : ℕ
  nativeDpiMin : ℚ
deriving DecidableEq

/-- Analysis slice of the detect-art-format route, src/main.py lines 229
to 295: the metrics computed for a page and clip and the label returned
by the decision rule.  The decision consumes the stored native dpi
value, which the route rounds to one decimal; upload handling, page
selection and the purely cosmetic rounding of the other JSON record
fields are plumbing and are not modeled. -/
def detect_art_format (extract : ℕ → Option (ℕ × ℕ)) (page : Page)
    (clip : Rect) : String × Metrics :=
  let raster_cov := (sum_raster_coverage_in_clip page clip).2
  let text_cov := text_coverage_in_clip page clip
  let draw_cov := drawings_coverage_in_clip page clip
  let vector_cov := max 0 (min 1 (text_cov + 30/100 * draw_cov))
  let vector_segments := count_vector_segments_in page clip
  let raster_count := page.images.length
  let native_dpi_min :=
    match native_raster_metrics extract page clip with
    | some ni => round1 ni.nativeDpiMin
    | none => 0
  (decide_format_coverage raster_cov vector_cov vector_segments raster_count
      text_cov native_dpi_min,
   ⟨raster_count, raster_cov, text_cov, draw_cov, vector_cov, vector_segments,
    native_dpi_min⟩)

/-! Basic geometry facts about the Rect model. -/

theorem Rect.width_nonneg (r : Rect) : 0 ≤ r.width := le_max_left 0 _

theorem Rect.height_nonneg (r : Rect) : 0 ≤ r.height := le_max_left 0 _

theorem Rect.get_area_nonneg (r : Rect) : 0 ≤ r.get_area :=
  mul_nonneg r.width_nonneg r.height_nonneg

theorem Rect.intersect_width_le (r s : Rect) : (r.intersect s).width ≤ s.width := by
  simp only [Rect.intersect, Rect.width]
  exact max_le_max le_rfl (sub_le_sub (min_le_right _ _) (le_max_right _ _))

theorem Rect.intersect_height_le (r s : Rect) : (r.intersect s).height ≤ s.height := by
  simp only [Rect.intersect, Rect.height]
  exact max_le_max le_rfl (sub_le_sub (min_le_right _ _) (le_max_right _ _))

theorem Rect.intersect_area_le (r s : Rect) : (r.intersect s).get_area ≤ s.get_area :=
  mul_le_mul (r.intersect_width_le s) (r.intersect_height_le s)
    (r.intersect s).height_nonneg s.width_nonneg

theorem Rect.intersect_area_zero (r s : Rect) (h : s.get_area = 0) :
    (r.intersect s).get_area = 0 :=
  le_antisymm (h ▸ r.intersect_area_le s) (r.intersect s).get_area_nonneg

theorem Rect.intersect_area_le_left (r s : Rect) :
    (r.intersect s).get_area ≤ r.get_area := by
  have hw : (r.intersect s).width ≤ r.width := by
    simp only [Rect.intersect, Rect.width]
    exact max_le_max le_rfl (sub_le_sub (min_le_left _ _) (le_max_left _ _))
  have hh : (r.intersect s).height ≤ r.height := by
    simp only [Rect.intersect, Rect.height]
    exact max_le_max le_rfl (sub_le_sub (min_le_left _ _) (le_max_left _ _))
  exact mul_le_mul hw hh (r.intersect s).height_nonneg r.width_nonneg

theorem Rect.get_area_of_empty (r : Rect) (h : r.is_empty) : r.get_area = 0 := by
  unfold Rect.is_empty at h
  unfold Rect.get_area Rect.width Rect.height
  rcases h with h | h
  · rw [max_eq_left (by linarith : r.x1 - r.x0 ≤ 0), zero_mul]
  · rw [max_eq_left (by linarith : r.y1 - r.y0 ≤ 0), mul_zero]

theorem Rect.area_zero_of_not_intersects (r s : Rect) (h : ¬r.intersects s) :
    (r.intersect s).get_area = 0 := by
  by_cases h1 : r.is_empty
  · exact le_antisymm
      (le_trans (r.intersect_area_le_left s) (le_of_eq (r.get_area_of_empty h1)))
      (r.intersect s).get_area_nonneg
  · by_cases h2 : s.is_empty
    · exact Rect.intersect_area_zero r s (s.get_area_of_empty h2)
    · have h3 : (r.intersect s).is_empty := by
        by_contra h3
        exact h ⟨h1, h2, h3⟩
      exact (r.intersect s).get_area_of_empty h3

theorem clip_area_pos (clip : Rect) : 0 < max 1 clip.get_area :=
  lt_of_lt_of_le one_pos (le_max_left 1 _)

/-! Accumulator loops rewritten as sums of per-element contributions. -/

theorem foldl_add_eq {α M : Type} [AddCommMonoid M] (f : M → α → M) (g : α → M)
    (hf : ∀ acc x, f acc x = acc + g x) :
    ∀ (l : List α) (n : M), l.foldl f n = n + (l.map g).sum := by
  intro l
  induction l with
  | nil => intro n; simp
  | cons e t ih =>
    intro n
    simp only [List.foldl_cons, List.map_cons, List.sum_cons, hf]
    rw [ih, add_assoc]

/-- Per-image contribution of the raster coverage loop and of the
largest-image search: the area the placement bbox shares with the clip,
zero for a falsy xref or an unreadable bbox. -/
def image_inter_area (clip : Rect) (img : Image) : ℚ :=
  if img.xref = 0 then 0
  else
    match img.bbox with
    | none => 0
    | some bbox => (bbox.intersect clip).get_area

theorem image_inter_area_nonneg (clip : Rect) (img : Image) :
    0 ≤ image_inter_area clip img := by
  unfold image_inter_area
  rcases img with ⟨x, b⟩
  by_cases hx : x = 0
  · simp [hx]
  · cases b <;> simp [hx, Rect.get_area_nonneg]

theorem sum_raster_eq (page : Page) (clip : Rect) :
    sum_raster_coverage_in_clip page clip =
      ((page.images.map (image_inter_area clip)).sum,
        min 1 ((page.images.map (image_inter_area clip)).sum / max 1 clip.get_area)) := by
  have hstep : ∀ (tot : ℚ) (img : Image),
      (if img.xref = 0 then tot
       else
         match img.bbox with
         | none => tot
         | some bbox => tot + (bbox.intersect clip).get_area) =
        tot + image_inter_area clip img := by
    intro tot img
    unfold image_inter_area
    rcases img with ⟨x, b⟩
    by_cases hx : x = 0
    · simp [hx]
    · cases b <;> simp [hx]
  simp only [sum_raster_coverage_in_clip]
  rw [foldl_add_eq _ _ hstep page.images 0, zero_add]

/-- Per-block contribution of the text coverage loop. -/
def text_block_area (clip : Rect) (b : TextBlock) : ℚ :=
  if b.btype ≠ 0 then 0 else (b.rect.intersect clip).get_area

theorem text_block_area_nonneg (clip : Rect) (b : TextBlock) :
    0 ≤ text_block_area clip b := by
  unfold text_block_area
  split_ifs <;> simp [Rect.get_area_nonneg]

theorem text_coverage_eq (page : Page) (clip : Rect) :
    text_coverage_in_clip page clip =
      min 1 ((page.blocks.map (text_block_area clip)).sum / max 1 clip.get_area) := by
  have hstep : ∀ (tot : ℚ) (b : TextBlock),
      (if b.btype ≠ 0 then tot else tot + (b.rect.intersect clip).get_area) =
        tot + text_block_area clip b := by
    intro tot b
    unfold text_block_area
    split_ifs <;> simp
  simp only [text_coverage_in_clip]
  rw [foldl_add_eq _ _ hstep page.blocks 0, zero_add]

theorem drawing_weight_pos (d : Drawing) (frac : ℚ) : 0 < drawing_weight d frac := by
  unfold drawing_weight
  split_ifs <;> norm_num

/-- Per-drawing contribution of the weighted drawing coverage loop. -/
def drawing_cov_contrib (clip : Rect) (d : Drawing) : ℚ :=
  if d.width ≤ 1/4 ∧ d.fill = false then 0
  else
    match d.rect with
    | none => 0
    | some rct =>
      if (rct.intersect clip).get_area ≤ 0 then 0
      else
        (rct.intersect clip).get_area *
          drawing_weight d ((rct.intersect clip).get_area / max 1 clip.get_area)

theorem drawing_cov_contrib_nonneg (clip : Rect) (d : Drawing) :
    0 ≤ drawing_cov_contrib clip d := by
  unfold drawing_cov_contrib
  rcases d with ⟨rct, items, w, f⟩
  dsimp only
  split_ifs with h1
  · exact le_rfl
  · cases rct with
    | none => exact le_rfl
    | some rc =>
      dsimp only
      split_ifs with h2
      · exact le_rfl
      · push_neg at h2
        exact le_of_lt (mul_pos h2 (drawing_weight_pos _ _))

theorem drawings_coverage_eq (page : Page) (clip : Rect) :
    drawings_coverage_in_clip page clip =
      min 1 ((page.drawings.map (drawing_cov_contrib clip)).sum / max 1 clip.get_area) := by
  have hstep : ∀ (acc : ℚ) (d : Drawing),
      (if d.width ≤ 1/4 ∧ d.fill = false then acc
       else
         match d.rect with
         | none => acc
         | some rct =>
           let inter_area := (rct.intersect clip).get_area
           if inter_area ≤ 0 then acc
           else acc + inter_area * drawing_weight d (inter_area / max 1 clip.get_area)) =
        acc + drawing_cov_contrib clip d := by
    intro acc d
    unfold drawing_cov_contrib
    rcases d with ⟨rct, items, w, f⟩
    dsimp only
    split_ifs with h1
    · simp
    · cases rct with
      | none => simp
      | some rc =>
        dsimp only
        split_ifs with h2 <;> simp
  simp only [drawings_coverage_in_clip]
  rw [foldl_add_eq _ _ hstep page.drawings 0, zero_add]

/-- Per-operator counting rule of the segment counter as the amended
claim C4 describes it: an unfilled drawing with stroke width at most
0.25 contributes nothing; otherwise every recognized operator counts,
the rectangle operator included, whether or not the drawing is filled. -/
def claim_op_count (d : Drawing) : ℕ :=
  if d.fill = false ∧ d.width ≤ 1/4 then 0
  else (d.items.filter fun op => decide (op ∈ seg_ops)).length

theorem recognized_count_eq_claim (d : Drawing) :
    recognized_count d = claim_op_count d := by
  unfold recognized_count claim_op_count
  rcases d with ⟨rct, items, w, f⟩
  dsimp only
  cases f with
  | false =>
    by_cases hw : w ≤ 1/4
    · rw [decide_eq_true hw]
      simp only [Bool.not_false, Bool.and_true, Bool.not_true, Bool.and_false]
      rw [if_pos (⟨trivial, hw⟩ : True ∧ w ≤ 1/4)]
      simp
    · rw [decide_eq_false hw]
      simp only [Bool.and_false, Bool.not_false, Bool.and_true]
      rw [if_neg (fun h => hw h.2)]
  | true => simp

/-- Per-drawing contribution to the segment count as the amended claim
C4 describes it: a drawing whose bounding rect is truthy, that is not
the all-zero rect, is skipped when that rect does not intersect the
clip, or when its intersection fraction of the clip is at least 0.15
and it has fewer than 8 path items; a drawing without a bounding rect,
or whose bounding rect is the all-zero rect, is never skipped. -/
def seg_contrib (clip : Rect) (d : Drawing) : ℕ :=
  match d.rect with
  | some rct =>
    if ¬rct.is_zero ∧ ¬rct.intersects clip then 0
    else if ¬rct.is_zero ∧
        (15/100 ≤ (rct.intersect clip).get_area / max 1 clip.get_area ∧
          d.items.length < 8) then 0
    else claim_op_count d
  | none => claim_op_count d

theorem count_segments_eq_sum (page : Page) (clip : Rect) :
    count_vector_segments_in page clip =
      (page.drawings.map (seg_contrib clip)).sum := by
  have hstep : ∀ (segs : ℕ) (d : Drawing),
      (match d.rect with
       | some rct =>
         if ¬rct.is_zero ∧ ¬rct.intersects clip then segs
         else if ¬rct.is_zero ∧
             (15/100 ≤ (rct.intersect clip).get_area / max 1 clip.get_area ∧
               d.items.length < 8) then segs
         else segs + recognized_count d
       | none => segs + recognized_count d) =
        segs + seg_contrib clip d := by
    intro segs d
    unfold seg_contrib
    rcases d with ⟨rct, items, w, f⟩
    cases rct with
    | none => simp [recognized_count_eq_claim]
    | some rc =>
      dsimp only
      split_ifs <;> simp [recognized_count_eq_claim]
  simp only [count_vector_segments_in]
  rw [foldl_add_eq _ _ hstep page.drawings 0]
  simp

/-! Facts about the decision cascade. -/

theorem dfc_total (r v T d : ℚ) (S C : ℕ) :
    decide_format_coverage r v S C T d = "has raster" ∨
      decide_format_coverage r v S C T d = "has vector" := by
  unfold decide_format_coverage
  split_ifs <;> simp

set_option maxHeartbeats 1600000 in
theorem dfc_eq_vector_iff (r v T d : ℚ) (S C : ℕ) :
    decide_format_coverage r v S C T d = "has vector" ↔
      (r ≤ 2/100 ∧ (3/100 ≤ v ∨ 25/1000 ≤ T ∨ C = 0 ∨ 20 ≤ S)) ∨
      (¬(r ≤ 2/100 ∧ (3/100 ≤ v ∨ 25/1000 ≤ T ∨ C = 0 ∨ 20 ≤ S)) ∧
        ¬(v + 1/100 ≤ r) ∧ r + 12/100 ≤ v) ∨
      (¬(r ≤ 2/100 ∧ (3/100 ≤ v ∨ 25/1000 ≤ T ∨ C = 0 ∨ 20 ≤ S)) ∧
        ¬(v + 1/100 ≤ r) ∧ ¬(r + 12/100 ≤ v) ∧ ¬(15/100 ≤ r ∧ v ≤ 30/100) ∧
        r ≤ 3/100 ∧ 40 ≤ S) ∨
      (¬(r ≤ 2/100 ∧ (3/100 ≤ v ∨ 25/1000 ≤ T ∨ C = 0 ∨ 20 ≤ S)) ∧
        ¬(v + 1/100 ≤ r) ∧ ¬(r + 12/100 ≤ v) ∧ ¬(15/100 ≤ r ∧ v ≤ 30/100) ∧
        ¬(r ≤ 3/100 ∧ 40 ≤ S) ∧
        (18 ≤ S ∧ d ≠ 0 ∧ d < 40 ∧ 10/100 ≤ r)) := by
  unfold decide_format_coverage
  by_cases h1 : r ≤ 2/100 ∧ (3/100 ≤ v ∨ 25/1000 ≤ T ∨ C = 0 ∨ 20 ≤ S)
  · rw [if_pos h1]
    exact iff_of_true rfl (Or.inl h1)
  · rw [if_neg h1]
    by_cases h2 : v + 1/100 ≤ r
    · rw [if_pos h2]
      refine iff_of_false (by decide) ?_
      rintro (h | ⟨-, hn, -⟩ | ⟨-, hn, -, -, -, -⟩ | ⟨-, hn, -, -, -, -⟩)
      · exact h1 h
      · exact hn h2
      · exact hn h2
      · exact hn h2
    · rw [if_neg h2]
      by_cases h3 : r + 12/100 ≤ v
      · rw [if_pos h3]
        exact iff_of_true rfl (Or.inr (Or.inl ⟨h1, h2, h3⟩))
      · rw [if_neg h3]
        by_cases h4 : 15/100 ≤ r ∧ v ≤ 30/100
        · rw [if_pos h4]
          refine iff_of_false (by decide) ?_
          rintro (h | ⟨-, -, hn⟩ | ⟨-, -, -, hn, -, -⟩ | ⟨-, -, -, hn, -, -⟩)
          · exact h1 h
          · exact h3 hn
          · exact hn h4
          · exact hn h4
        · rw [if_neg h4]
          by_cases h5 : r ≤ 3/100 ∧ 40 ≤ S
          · rw [if_pos h5]
            exact iff_of_true rfl
              (Or.inr (Or.inr (Or.inl ⟨h1, h2, h3, h4, h5.1, h5.2⟩)))
          · rw [if_neg h5]
            by_cases h6 : 18 ≤ S ∧ d ≠ 0 ∧ d < 40 ∧ 10/100 ≤ r
            · rw [if_pos h6]
              exact iff_of_true rfl (Or.inr (Or.inr (Or.inr ⟨h1, h2, h3, h4, h5, h6⟩)))
            · rw [if_neg h6]
              refine iff_of_false (by decide) ?_
              rintro (h | ⟨-, -, h⟩ | ⟨-, -, -, -, ha, hb⟩ | ⟨-, -, -, -, -, hc⟩)
              · exact h1 h
              · exact h3 h
              · exact h5 ⟨ha, hb⟩
              · exact h6 hc

/-! Claim C1. -/

/-- C1 counterexample: with effectiveVectorCoverage 0.10, vectorSegments 18,
rasterCount 1, textCoverage 0 and nativeDpiMin 10 all fixed, raising
rasterCoverage from 0.05 to 0.10 flips the label from has raster to has
vector, because rule 6 only fires once rasterCoverage reaches 0.10; so
increasing rasterCoverage can flip the label away from has raster. -/
theorem C1_counterexample :
    decide_format_coverage (5/100) (10/100) 18 1 0 10 = "has raster" ∧
    decide_format_coverage (10/100) (10/100) 18 1 0 10 = "has vector" ∧
    (5 : ℚ)/100 < 10/100 :=
  ⟨by norm_num [decide_format_coverage], by norm_num [decide_format_coverage],
    by norm_num⟩

/-- C1 amended: increasing effectiveVectorCoverage with all other inputs
fixed never flips the label from has vector to has raster; increasing
rasterCoverage with all other inputs fixed never flips the label from has
raster to has vector provided the low detail raster override of rule 6
cannot fire, that is, unless vectorSegments is at least 18 and
nativeDpiMin is nonzero and below 40. -/
theorem C1_monotonicity_amended :
    (∀ (r1 r2 v T d : ℚ) (S C : ℕ), r1 < r2 →
      ¬(18 ≤ S ∧ d ≠ 0 ∧ d < 40) →
      decide_format_coverage r1 v S C T d = "has raster" →
      decide_format_coverage r2 v S C T d = "has raster") ∧
    (∀ (r v1 v2 T d : ℚ) (S C : ℕ), v1 < v2 →
      decide_format_coverage r v1 S C T d = "has vector" →
      decide_format_coverage r v2 S C T d = "has vector") := by
  constructor
  · intro r1 r2 v T d S C hlt hdpi hr
    rcases dfc_total r2 v T d S C with hgoal | hvec
    · exact hgoal
    · exfalso
      have hv1 : decide_format_coverage r1 v S C T d = "has vector" := by
        rcases (dfc_eq_vector_iff r2 v T d S C).mp hvec with
          ⟨h1a, h1D⟩ | ⟨n1, n2, h3⟩ | ⟨n1, n2, n3, n4, h5a, h5b⟩ | ⟨n1, n2, n3, n4, n5, h6⟩
        · exact (dfc_eq_vector_iff r1 v T d S C).mpr (Or.inl ⟨by linarith, h1D⟩)
        · by_cases hR1 : r1 ≤ 2/100 ∧ (3/100 ≤ v ∨ 25/1000 ≤ T ∨ C = 0 ∨ 20 ≤ S)
          · exact (dfc_eq_vector_iff r1 v T d S C).mpr (Or.inl hR1)
          · refine (dfc_eq_vector_iff r1 v T d S C).mpr
              (Or.inr (Or.inl ⟨hR1, fun hc => n2 (by linarith), by linarith⟩))
        · by_cases hR1 : r1 ≤ 2/100 ∧ (3/100 ≤ v ∨ 25/1000 ≤ T ∨ C = 0 ∨ 20 ≤ S)
          · exact (dfc_eq_vector_iff r1 v T d S C).mpr (Or.inl hR1)
          · by_cases hR3 : r1 + 12/100 ≤ v
            · exact (dfc_eq_vector_iff r1 v T d S C).mpr
                (Or.inr (Or.inl ⟨hR1, fun hc => n2 (by linarith), hR3⟩))
            · refine (dfc_eq_vector_iff r1 v T d S C).mpr
                (Or.inr (Or.inr (Or.inl ⟨hR1, fun hc => n2 (by linarith), hR3,
                  fun hc => ?_, by linarith, h5b⟩)))
              have := hc.1
              linarith
        · exact (hdpi ⟨h6.1, h6.2.1, h6.2.2.1⟩).elim
      exact absurd (hv1.symm.trans hr) (by decide)
  · intro r v1 v2 T d S C hlt hv
    rcases (dfc_eq_vector_iff r v1 T d S C).mp hv with
      ⟨h1a, h1D⟩ | ⟨n1, n2, h3⟩ | ⟨n1, n2, n3, n4, h5a, h5b⟩ | ⟨n1, n2, n3, n4, n5, h6⟩
    · refine (dfc_eq_vector_iff r v2 T d S C).mpr (Or.inl ⟨h1a, ?_⟩)
      rcases h1D with hv3 | hT | hC | hS
      · exact Or.inl (by linarith)
      · exact Or.inr (Or.inl hT)
      · exact Or.inr (Or.inr (Or.inl hC))
      · exact Or.inr (Or.inr (Or.inr hS))
    · by_cases hR1 : r ≤ 2/100 ∧ (3/100 ≤ v2 ∨ 25/1000 ≤ T ∨ C = 0 ∨ 20 ≤ S)
      · exact (dfc_eq_vector_iff r v2 T d S C).mpr (Or.inl hR1)
      · exact (dfc_eq_vector_iff r v2 T d S C).mpr
          (Or.inr (Or.inl ⟨hR1, fun hc => n2 (by linarith), by linarith⟩))
    · by_cases hR1 : r ≤ 2/100 ∧ (3/100 ≤ v2 ∨ 25/1000 ≤ T ∨ C = 0 ∨ 20 ≤ S)
      · exact (dfc_eq_vector_iff r v2 T d S C).mpr (Or.inl hR1)
      · by_cases hR3 : r + 12/100 ≤ v2
        · exact (dfc_eq_vector_iff r v2 T d S C).mpr
            (Or.inr (Or.inl ⟨hR1, fun hc => n2 (by linarith), hR3⟩))
        · refine (dfc_eq_vector_iff r v2 T d S C).mpr
            (Or.inr (Or.inr (Or.inl ⟨hR1, fun hc => n2 (by linarith), hR3,
              fun hc => n4 ⟨hc.1, by linarith [hc.2]⟩, h5a, h5b⟩)))
    · by_cases hR1 : r ≤ 2/100 ∧ (3/100 ≤ v2 ∨ 25/1000 ≤ T ∨ C = 0 ∨ 20 ≤ S)
      · exact (dfc_eq_vector_iff r v2 T d S C).mpr (Or.inl hR1)
      · by_cases hR3 : r + 12/100 ≤ v2
        · exact (dfc_eq_vector_iff r v2 T d S C).mpr
            (Or.inr (Or.inl ⟨hR1, fun hc => n2 (by linarith), hR3⟩))
        · refine (dfc_eq_vector_iff r v2 T d S C).mpr
            (Or.inr (Or.inr (Or.inr ⟨hR1, fun hc => n2 (by linarith), hR3,
              fun hc => n4 ⟨hc.1, by linarith [hc.2]⟩, n5, h6⟩)))

/-- C1 amended witness: both halves of the amended monotonicity statement
applied at concrete inputs. -/
theorem C1_monotonicity_amended_witness :
    decide_format_coverage (30/100) (10/100) 0 1 0 0 = "has raster" ∧
    decide_format_coverage 0 (20/100) 0 0 0 0 = "has vector" :=
  ⟨C1_monotonicity_amended.1 (20/100) (30/100) (10/100) 0 0 0 1 (by norm_num)
      (by norm_num) (by norm_num [decide_format_coverage]),
    C1_monotonicity_amended.2 0 (5/100) (20/100) 0 0 0 0 (by norm_num)
      (by norm_num [decide_format_coverage])⟩

/-! Claim C2. -/

/-- C2: rule 1 of the cascade, the no-raster guard.  Whenever
rasterCoverage is at most 0.02 and effectiveVectorCoverage is at least
0.03 or textCoverage is at least 0.025 or rasterCount is 0 or
vectorSegments is at least 20, the decision is has vector; and a
completely blank region, a page with no images, no drawings and no text
blocks, where every coverage metric is zero and rasterCount is zero, is
labeled has vector by the full analysis. -/
theorem C2_no_raster_guard :
    (∀ (raster_cov vector_cov text_cov native_dpi_min : ℚ)
        (vector_segments raster_count : ℕ),
      raster_cov ≤ 2/100 →
      (3/100 ≤ vector_cov ∨ 25/1000 ≤ text_cov ∨ raster_count = 0 ∨
        20 ≤ vector_segments) →
      decide_format_coverage raster_cov vector_cov vector_segments raster_count
        text_cov native_dpi_min = "has vector") ∧
    (∀ (extract : ℕ → Option (ℕ × ℕ)) (page : Page) (clip : Rect),
      page.images = [] → page.drawings = [] → page.blocks = [] →
      (detect_art_format extract page clip).1 = "has vector") := by
  constructor
  · intro r v T dmin S C h1 h2
    unfold decide_format_coverage
    rw [if_pos ⟨h1, h2⟩]
  · intro extract page clip himg hdraw hblk
    have hrc : (sum_raster_coverage_in_clip page clip).2 = 0 := by
      rw [sum_raster_eq, himg]
      norm_num
    have htc : text_coverage_in_clip page clip = 0 := by
      rw [text_coverage_eq, hblk]
      norm_num
    have hdc : drawings_coverage_in_clip page clip = 0 := by
      rw [drawings_coverage_eq, hdraw]
      norm_num
    have hseg : count_vector_segments_in page clip = 0 := by
      rw [count_segments_eq_sum, hdraw]
      simp
    have hfl : find_largest_image_in_clip page clip = none := by
      unfold find_largest_image_in_clip
      rw [himg]
      rfl
    have hnat : native_raster_metrics extract page clip = none := by
      unfold native_raster_metrics
      rw [hfl]
    simp only [detect_art_format, hrc, htc, hdc, hseg, hnat, himg,
      List.length_nil]
    unfold decide_format_coverage
    rw [if_pos ⟨by norm_num, Or.inr (Or.inr (Or.inl rfl))⟩]

/-- C2 witness: the guard applied at concrete inputs and the blank page
applied at a concrete page and clip. -/
theorem C2_no_raster_guard_witness :
    decide_format_coverage (1/100) (5/100) 0 3 0 0 = "has vector" ∧
    (detect_art_format (fun _ => none) ⟨⟨0, 0, 612, 792⟩, [], [], []⟩
      ⟨0, 0, 612, 792⟩).1 = "has vector" :=
  ⟨C2_no_raster_guard.1 (1/100) (5/100) 0 0 0 3 (by norm_num)
      (Or.inl (by norm_num)),
    C2_no_raster_guard.2 (fun _ => none) ⟨⟨0, 0, 612, 792⟩, [], [], []⟩
      ⟨0, 0, 612, 792⟩ rfl rfl rfl⟩

/-! Claim C6. -/

/-- C6: rules 2 and 3 of the cascade.  On any input where rule 1 does not
fire, a rasterCoverage of at least effectiveVectorCoverage plus 0.01
yields has raster; otherwise an effectiveVectorCoverage of at least
rasterCoverage plus 0.12 yields has vector.  Rule 2 is checked first, in
the order of the source. -/
theorem C6_margins (r v T d : ℚ) (S C : ℕ)
    (h1 : ¬(r ≤ 2/100 ∧ (3/100 ≤ v ∨ 25/1000 ≤ T ∨ C = 0 ∨ 20 ≤ S))) :
    (v + 1/100 ≤ r → decide_format_coverage r v S C T d = "has raster") ∧
    (¬(v + 1/100 ≤ r) → r + 12/100 ≤ v →
      decide_format_coverage r v S C T d = "has vector") := by
  constructor
  · intro h2
    unfold decide_format_coverage
    rw [if_neg h1, if_pos h2]
  · intro h2 h3
    unfold decide_format_coverage
    rw [if_neg h1, if_neg h2, if_pos h3]

/-- C6 witness: both margin rules applied at concrete inputs. -/
theorem C6_margins_witness :
    decide_format_coverage (50/100) (10/100) 0 1 0 0 = "has raster" ∧
    decide_format_coverage (10/100) (50/100) 0 1 0 0 = "has vector" :=
  ⟨(C6_margins (50/100) (10/100) 0 0 0 1 (by norm_num)).1 (by norm_num),
    (C6_margins (10/100) (50/100) 0 0 0 1 (by norm_num)).2 (by norm_num)
      (by norm_num)⟩

/-! Claim C3. -/

/-- C3 counterexample: a request lying entirely to the right of the page
clamps to an inverted Rect, x1 strictly below x0, so the clamped result
is not always a valid Rect.  Page bounds are 0 0 612 792 and the request
is x 1000, y 0, width 10, height 10 with the pdf origin tag. -/
theorem C3_counterexample :
    (rect_from_params ⟨⟨0, 0, 612, 792⟩, [], [], []⟩
        (some ⟨some "pdf", some 1000, some 0, some 10, some 10⟩)).x1 <
      (rect_from_params ⟨⟨0, 0, 612, 792⟩, [], [], []⟩
        (some ⟨some "pdf", some 1000, some 0, some 10, some 10⟩)).x0 := by
  norm_num [rect_from_params]

/-- C3 amended: rect_from_params is total and falls back to the bottom
half of the page when the payload is absent, when the origin tag is not
the pdf marker, or when any coordinate field is missing or non-numeric;
and the clamped Rect of an explicit request satisfies x1 at least x0 and
y1 at least y0 whenever the request has nonnegative width and height and
overlaps the page.  For requests lying outside the page the clamped Rect
can be inverted, as the counterexample shows; such a Rect has zero area
downstream. -/
theorem C3_region_selector_amended :
    (∀ page : Page, rect_from_params page none = bottom_half_rect page) ∧
    (∀ (page : Page) (d : Params), d.coordsOrigin.getD "" ≠ "pdf" →
      rect_from_params page (some d) = bottom_half_rect page) ∧
    (∀ (page : Page) (d : Params),
      (d.x = none ∨ d.y = none ∨ d.width = none ∨ d.height = none) →
      rect_from_params page (some d) = bottom_half_rect page) ∧
    (∀ (page : Page) (d : Params) (x y w h : ℚ),
      d.coordsOrigin.getD "" = "pdf" →
      d.x = some x → d.y = some y → d.width = some w → d.height = some h →
      page.rect.x0 ≤ page.rect.x1 → page.rect.y0 ≤ page.rect.y1 →
      0 ≤ w → 0 ≤ h →
      x ≤ page.rect.x1 → page.rect.x0 ≤ x + w →
      y ≤ page.rect.y1 → page.rect.y0 ≤ y + h →
      (rect_from_params page (some d)).x0 ≤ (rect_from_params page (some d)).x1 ∧
      (rect_from_params page (some d)).y0 ≤ (rect_from_params page (some d)).y1) := by
  refine ⟨fun page => rfl, ?_, ?_, ?_⟩
  · intro page d h
    unfold rect_from_params
    dsimp only
    rw [if_pos h]
  · intro page d h
    unfold rect_from_params
    dsimp only
    split_ifs with htag
    · rfl
    · rcases d with ⟨co, dx, dy, dw, dh⟩
      cases dx <;> cases dy <;> cases dw <;> cases dh <;> first | rfl | simp_all
  · intro page d x y w h htag hx hy hw hh hpx hpy hw0 hh0 hx1 hxw hy1 hyh
    rcases d with ⟨co, dx, dy, dw, dh⟩
    subst hx hy hw hh
    unfold rect_from_params
    dsimp only
    rw [if_neg (not_not_intro htag)]
    dsimp only
    constructor
    · exact max_le (le_min hpx hxw) (le_min hx1 (by linarith))
    · exact max_le (le_min hpy hyh) (le_min hy1 (by linarith))

/-- C3 amended witness: all four parts applied at concrete pages and
payloads. -/
theorem C3_region_selector_amended_witness :
    rect_from_params ⟨⟨0, 0, 612, 792⟩, [], [], []⟩ none =
      bottom_half_rect ⟨⟨0, 0, 612, 792⟩, [], [], []⟩ ∧
    rect_from_params ⟨⟨0, 0, 612, 792⟩, [], [], []⟩
        (some ⟨some "screen", some 1, some 1, some 1, some 1⟩) =
      bottom_half_rect ⟨⟨0, 0, 612, 792⟩, [], [], []⟩ ∧
    rect_from_params ⟨⟨0, 0, 612, 792⟩, [], [], []⟩
        (some ⟨some "pdf", none, some 1, some 1, some 1⟩) =
      bottom_half_rect ⟨⟨0, 0, 612, 792⟩, [], [], []⟩ ∧
    (rect_from_params ⟨⟨0, 0, 612, 792⟩, [], [], []⟩
        (some ⟨some "pdf", some 100, some 100, some 200, some 200⟩)).x0 ≤
      (rect_from_params ⟨⟨0, 0, 612, 792⟩, [], [], []⟩
        (some ⟨some "pdf", some 100, some 100, some 200, some 200⟩)).x1 ∧
    (rect_from_params ⟨⟨0, 0, 612, 792⟩, [], [], []⟩
        (some ⟨some "pdf", some 100, some 100, some 200, some 200⟩)).y0 ≤
      (rect_from_params ⟨⟨0, 0, 612, 792⟩, [], [], []⟩
        (some ⟨some "pdf", some 100, some 100, some 200, some 200⟩)).y1 :=
  ⟨C3_region_selector_amended.1 _,
    C3_region_selector_amended.2.1 _ _ (by simp),
    C3_region_selector_amended.2.2.1 _ _ (Or.inl rfl),
    C3_region_selector_amended.2.2.2 _ _ 100 100 200 200 rfl rfl rfl rfl rfl
      (by norm_num) (by norm_num) (by norm_num) (by norm_num) (by norm_num)
      (by norm_num) (by norm_num) (by norm_num)⟩

/-! Claim C4. -/

/-- C4 counterexample, two parts.  First, an unfilled drawing with
stroke width 1 whose only path item is the rectangle operator
contributes one segment, although the claim says rectangle operators
are counted only when the drawing is filled; the drawing is a 1 by 1
rect inside a 100 by 100 clip, so it is kept by both skip rules.
Second, a drawing whose bounding rect is the all-zero rect is falsy in
the source, so its operator is counted even though that rect does not
intersect the clip, refuting the unconditional skip clause of the
claim. -/
theorem C4_counterexample :
    (count_vector_segments_in
        ⟨⟨0, 0, 100, 100⟩, [], [⟨some ⟨0, 0, 1, 1⟩, ["re"], 1, false⟩], []⟩
        ⟨0, 0, 100, 100⟩ = 1 ∧
      (⟨some ⟨0, 0, 1, 1⟩, ["re"], 1, false⟩ : Drawing).fill = false) ∧
    (count_vector_segments_in
        ⟨⟨0, 0, 100, 100⟩, [], [⟨some ⟨0, 0, 0, 0⟩, ["l"], 1, true⟩], []⟩
        ⟨50, 50, 60, 60⟩ = 1 ∧
      ¬Rect.intersects ⟨0, 0, 0, 0⟩ ⟨50, 50, 60, 60⟩) := by
  refine ⟨⟨?_, rfl⟩, ?_, ?_⟩
  · norm_num [count_vector_segments_in, recognized_count, seg_ops,
      Rect.intersects, Rect.is_empty, Rect.is_zero, Rect.intersect,
      Rect.get_area, Rect.width, Rect.height, List.filter]
  · norm_num [count_vector_segments_in, recognized_count, seg_ops,
      Rect.intersects, Rect.is_empty, Rect.is_zero, Rect.intersect,
      Rect.get_area, Rect.width, Rect.height, List.filter]
  · norm_num [Rect.intersects, Rect.is_empty]

/-- C4 amended: the segment counter equals the sum over all drawings of
the per-drawing contribution the claim describes, with two amendments.
First, the rectangle operator is counted exactly like the other
recognized operators, that is, whenever the drawing is filled or its
stroke width exceeds 0.25, not only when the drawing is filled.
Second, the two skip rules are truthiness-guarded in the source, so
they apply only to a drawing whose bounding rect is not the all-zero
rect: such a truthy-rect drawing contributes nothing when the rect does
not intersect the clip, or when its intersection fraction of the clip
is at least 0.15 with fewer than 8 path items, while a drawing with the
all-zero bbox, like one with no bbox, is never skipped.  A retained
unfilled drawing with stroke width at most 0.25 contributes nothing;
any other retained drawing contributes one unit per recognized
operator; and the result is a natural number, hence non-negative. -/
theorem C4_segment_counter_amended :
    ∀ (page : Page) (clip : Rect),
      count_vector_segments_in page clip =
        (page.drawings.map (seg_contrib clip)).sum :=
  count_segments_eq_sum

/-! Claim C5. -/

/-- C5: the panel down-weighting of the drawing coverage.  The weight is
0.05 when the drawing has a rectangle operator and its intersect
fraction is at least 0.15, or when it is filled, not stroked above the
0.25 width threshold, has at most 5 path items and its intersect
fraction is at least 0.15; the weight is 0.15 for a rectangle operator
drawing below that fraction; every other case gets a weight between 0.30
and 0.40; and a page whose single drawing is a filled, stroke-free
rectangle with at most 5 items covering at least 15 percent of a clip of
area at least one yields a drawing coverage of exactly 0.05 times the
ratio of intersection area to clip area. -/
theorem C5_panel_weight :
    (∀ (d : Drawing) (frac : ℚ),
      ((("re" ∈ d.items ∧ 15/100 ≤ frac) ∨
        (d.fill = true ∧ d.width ≤ 1/4 ∧ d.items.length ≤ 5 ∧ 15/100 ≤ frac)) →
        drawing_weight d frac = 5/100) ∧
      ("re" ∈ d.items → frac < 15/100 → drawing_weight d frac = 15/100) ∧
      ("re" ∉ d.items →
        ¬(d.fill = true ∧ d.width ≤ 1/4 ∧ d.items.length ≤ 5 ∧ 15/100 ≤ frac) →
        30/100 ≤ drawing_weight d frac ∧ drawing_weight d frac ≤ 40/100)) ∧
    (∀ (pr : Rect) (imgs : List Image) (blks : List TextBlock) (rct : Rect)
        (items : List String) (w : ℚ) (clip : Rect),
      "re" ∈ items → items.length ≤ 5 → w ≤ 1/4 →
      1 ≤ clip.get_area →
      15/100 ≤ (rct.intersect clip).get_area / clip.get_area →
      drawings_coverage_in_clip ⟨pr, imgs, [⟨some rct, items, w, true⟩], blks⟩
          clip =
        5/100 * ((rct.intersect clip).get_area / clip.get_area)) := by
  constructor
  · intro d frac
    refine ⟨?_, ?_, ?_⟩
    · intro hcond
      unfold drawing_weight
      rw [if_pos hcond]
    · intro hre hlt
      unfold drawing_weight
      rw [if_neg ?_, if_pos hre]
      rintro (⟨-, hf⟩ | ⟨-, -, -, hf⟩) <;> linarith
    · intro hnre hn2
      unfold drawing_weight
      rw [if_neg ?_, if_neg hnre]
      · constructor <;> norm_num
      · rintro (⟨hre, -⟩ | h2)
        · exact hnre hre
        · exact hn2 h2
  · intro pr imgs blks rct items w clip hre hlen hw hca hfrac
    have hmax : max 1 clip.get_area = clip.get_area := max_eq_right hca
    have hpos : (0:ℚ) < clip.get_area := lt_of_lt_of_le one_pos hca
    have hmul : 15/100 * clip.get_area ≤ (rct.intersect clip).get_area :=
      (le_div_iff₀ hpos).mp hfrac
    have hstep : (15:ℚ)/100 * 1 ≤ 15/100 * clip.get_area :=
      mul_le_mul_of_nonneg_left hca (by norm_num)
    have hia_pos : 0 < (rct.intersect clip).get_area := by linarith
    have hfrac' : 15/100 ≤ (rct.intersect clip).get_area / max 1 clip.get_area := by
      rw [hmax]
      exact hfrac
    rw [drawings_coverage_eq]
    simp only [List.map_cons, List.map_nil, List.sum_cons, List.sum_nil, add_zero]
    have hcontrib : drawing_cov_contrib clip ⟨some rct, items, w, true⟩ =
        (rct.intersect clip).get_area * (5/100) := by
      unfold drawing_cov_contrib
      rw [if_neg (fun hc => by simpa using hc.2)]
      dsimp only
      rw [if_neg (not_le.mpr hia_pos)]
      unfold drawing_weight
      rw [if_pos (Or.inl ⟨hre, hfrac'⟩)]
    rw [hcontrib, hmax]
    have h1 : (rct.intersect clip).get_area ≤ clip.get_area :=
      Rect.intersect_area_le rct clip
    have hle1 : (rct.intersect clip).get_area * (5/100) / clip.get_area ≤ 1 := by
      rw [div_le_one hpos]
      nlinarith
    rw [min_eq_right hle1, mul_comm, mul_div_assoc]

/-- C5 witness: the 0.05 weight case and the single-panel coverage
equality evaluated at a concrete page, drawing and clip. -/
theorem C5_panel_weight_witness :
    drawing_weight ⟨none, ["re"], 0, true⟩ (1/2) = 5/100 ∧
    drawings_coverage_in_clip
        ⟨⟨0, 0, 10, 10⟩, [], [⟨some ⟨0, 0, 5, 5⟩, ["re"], 0, true⟩], []⟩
        ⟨0, 0, 10, 10⟩ = 1/80 := by
  constructor
  · exact (C5_panel_weight.1 ⟨none, ["re"], 0, true⟩ (1/2)).1
      (Or.inl ⟨by simp, by norm_num⟩)
  · have h := C5_panel_weight.2 ⟨0, 0, 10, 10⟩ [] [] ⟨0, 0, 5, 5⟩ ["re"] 0
      ⟨0, 0, 10, 10⟩ (by simp) (by norm_num) (by norm_num)
      (by norm_num [Rect.get_area, Rect.width, Rect.height, max_def])
      (by norm_num [Rect.intersect, Rect.get_area, Rect.width, Rect.height,
        max_def, min_def])
    rw [h]
    norm_num [Rect.intersect, Rect.get_area, Rect.width, Rect.height,
      max_def, min_def]

/-! Claim C7. -/

theorem image_inter_area_of_zero_clip (clip : Rect) (img : Image)
    (h : clip.get_area = 0) : image_inter_area clip img = 0 := by
  unfold image_inter_area
  rcases img with ⟨x, b⟩
  by_cases hx : x = 0
  · simp [hx]
  · cases b <;> simp [hx, Rect.intersect_area_zero _ _ h]

theorem text_block_area_of_zero_clip (clip : Rect) (b : TextBlock)
    (h : clip.get_area = 0) : text_block_area clip b = 0 := by
  unfold text_block_area
  split_ifs
  · rfl
  · exact Rect.intersect_area_zero _ _ h

theorem drawing_cov_contrib_of_zero_clip (clip : Rect) (d : Drawing)
    (h : clip.get_area = 0) : drawing_cov_contrib clip d = 0 := by
  unfold drawing_cov_contrib
  split_ifs with h1
  · rfl
  · rcases d with ⟨rct, items, w, f⟩
    cases rct with
    | none => rfl
    | some rc =>
      dsimp only
      rw [if_pos (le_of_eq (Rect.intersect_area_zero _ _ h))]

/-- C7: each of the three coverage measurers returns a ratio between 0
and 1 for every page and clip, and a degenerate clip of zero area makes
all three return exactly 0; every ratio is taken against the positive
denominator max 1 clipArea, so no division fault can occur. -/
theorem C7_coverage_bounds (page : Page) (clip : Rect) :
    (0 ≤ (sum_raster_coverage_in_clip page clip).2 ∧
      (sum_raster_coverage_in_clip page clip).2 ≤ 1) ∧
    (0 ≤ text_coverage_in_clip page clip ∧ text_coverage_in_clip page clip ≤ 1) ∧
    (0 ≤ drawings_coverage_in_clip page clip ∧
      drawings_coverage_in_clip page clip ≤ 1) ∧
    (clip.get_area = 0 →
      (sum_raster_coverage_in_clip page clip).2 = 0 ∧
      text_coverage_in_clip page clip = 0 ∧
      drawings_coverage_in_clip page clip = 0) := by
  have hden : (0:ℚ) < max 1 clip.get_area := clip_area_pos clip
  have hs1 : 0 ≤ (page.images.map (image_inter_area clip)).sum := by
    refine List.sum_nonneg ?_
    intro x hx
    rcases List.mem_map.mp hx with ⟨a, -, rfl⟩
    exact image_inter_area_nonneg clip a
  have hs2 : 0 ≤ (page.blocks.map (text_block_area clip)).sum := by
    refine List.sum_nonneg ?_
    intro x hx
    rcases List.mem_map.mp hx with ⟨a, -, rfl⟩
    exact text_block_area_nonneg clip a
  have hs3 : 0 ≤ (page.drawings.map (drawing_cov_contrib clip)).sum := by
    refine List.sum_nonneg ?_
    intro x hx
    rcases List.mem_map.mp hx with ⟨a, -, rfl⟩
    exact drawing_cov_contrib_nonneg clip a
  refine ⟨⟨?_, ?_⟩, ⟨?_, ?_⟩, ⟨?_, ?_⟩, fun h0 => ⟨?_, ?_, ?_⟩⟩
  · rw [sum_raster_eq]
    exact le_min zero_le_one (div_nonneg hs1 (le_of_lt hden))
  · rw [sum_raster_eq]
    exact min_le_left _ _
  · rw [text_coverage_eq]
    exact le_min zero_le_one (div_nonneg hs2 (le_of_lt hden))
  · rw [text_coverage_eq]
    exact min_le_left _ _
  · rw [drawings_coverage_eq]
    exact le_min zero_le_one (div_nonneg hs3 (le_of_lt hden))
  · rw [drawings_coverage_eq]
    exact min_le_left _ _
  · rw [sum_raster_eq]
    have hz : (page.images.map (image_inter_area clip)).sum = 0 := by
      refine List.sum_eq_zero ?_
      intro x hx
      rcases List.mem_map.mp hx with ⟨a, -, rfl⟩
      exact image_inter_area_of_zero_clip clip a h0
    rw [hz]
    norm_num
  · rw [text_coverage_eq]
    have hz : (page.blocks.map (text_block_area clip)).sum = 0 := by
      refine List.sum_eq_zero ?_
      intro x hx
      rcases List.mem_map.mp hx with ⟨a, -, rfl⟩
      exact text_block_area_of_zero_clip clip a h0
    rw [hz]
    norm_num
  · rw [drawings_coverage_eq]
    have hz : (page.drawings.map (drawing_cov_contrib clip)).sum = 0 := by
      refine List.sum_eq_zero ?_
      intro x hx
      rcases List.mem_map.mp hx with ⟨a, -, rfl⟩
      exact drawing_cov_contrib_of_zero_clip clip a h0
    rw [hz]
    norm_num

/-- C7 witness: the zero-area clip case applied to a concrete page that
has an image, a drawing and a text block. -/
theorem C7_coverage_bounds_witness :
    (sum_raster_coverage_in_clip
        ⟨⟨0, 0, 100, 100⟩, [⟨1, some ⟨0, 0, 50, 50⟩⟩],
          [⟨some ⟨0, 0, 50, 50⟩, ["l"], 1, true⟩], [⟨⟨0, 0, 50, 50⟩, 0⟩]⟩
        ⟨0, 0, 0, 100⟩).2 = 0 ∧
    text_coverage_in_clip
        ⟨⟨0, 0, 100, 100⟩, [⟨1, some ⟨0, 0, 50, 50⟩⟩],
          [⟨some ⟨0, 0, 50, 50⟩, ["l"], 1, true⟩], [⟨⟨0, 0, 50, 50⟩, 0⟩]⟩
        ⟨0, 0, 0, 100⟩ = 0 ∧
    drawings_coverage_in_clip
        ⟨⟨0, 0, 100, 100⟩, [⟨1, some ⟨0, 0, 50, 50⟩⟩],
          [⟨some ⟨0, 0, 50, 50⟩, ["l"], 1, true⟩], [⟨⟨0, 0, 50, 50⟩, 0⟩]⟩
        ⟨0, 0, 0, 100⟩ = 0 :=
  (C7_coverage_bounds _ _).2.2.2
    (by norm_num [Rect.get_area, Rect.width, Rect.height, max_def])

/-! Claim C9. -/

theorem flic_stay_none (clip : Rect) :
    ∀ l : List Image, (∀ img ∈ l, image_inter_area clip img ≤ 0) →
      l.foldl (flic_step clip) ((none : Option (ℕ × Rect × Rect)), (0:ℚ)) =
        (none, 0) := by
  intro l
  induction l with
  | nil => intro _; rfl
  | cons e t ih =>
    intro h
    have hstep : flic_step clip (none, 0) e = (none, 0) := by
      unfold flic_step
      rcases e with ⟨x, b⟩
      by_cases hx : x = 0
      · rw [if_pos hx]
      · rw [if_neg hx]
        cases b with
        | none => rfl
        | some bb =>
          have ha := h ⟨x, some bb⟩ (List.mem_cons_self _ _)
          unfold image_inter_area at ha
          rw [if_neg hx] at ha
          dsimp only at ha ⊢
          rw [if_neg (not_lt.mpr ha)]
    rw [List.foldl_cons, hstep]
    exact ih fun img hm => h img (List.mem_cons_of_mem _ hm)

/-- C9: the rasterCount signal the decision rule consumes is the number
of images placed anywhere on the page, not only those meeting the clip;
consequently a clip with no content at all on a page that still holds an
image somewhere outside the clip fails the rasterCount clause of the
no-raster guard and is labeled has raster.  A drawing lying elsewhere on
the page is one with a truthy bounding rect, not the falsy all-zero
rect, that does not intersect the clip: a drawing with the all-zero bbox
would bypass the skip guards of the segment counter and be counted. -/
theorem C9_raster_count_page_global :
    (∀ (extract : ℕ → Option (ℕ × ℕ)) (page : Page) (clip : Rect),
      (detect_art_format extract page clip).2.rasterCount = page.images.length) ∧
    (∀ (extract : ℕ → Option (ℕ × ℕ)) (page : Page) (clip : Rect),
      page.images ≠ [] →
      (∀ img ∈ page.images, image_inter_area clip img = 0) →
      (∀ d ∈ page.drawings, ∃ rct, d.rect = some rct ∧ ¬rct.is_zero ∧
        ¬rct.intersects clip) →
      (∀ b ∈ page.blocks, (b.rect.intersect clip).get_area = 0) →
      (detect_art_format extract page clip).1 = "has raster") := by
  constructor
  · intro extract page clip
    rfl
  · intro extract page clip himg harea hdraw hblk
    have hrc : (sum_raster_coverage_in_clip page clip).2 = 0 := by
      rw [sum_raster_eq]
      have hz : (page.images.map (image_inter_area clip)).sum = 0 := by
        refine List.sum_eq_zero ?_
        intro x hx
        rcases List.mem_map.mp hx with ⟨a, ha, rfl⟩
        exact harea a ha
      rw [hz]
      norm_num
    have htc : text_coverage_in_clip page clip = 0 := by
      rw [text_coverage_eq]
      have hz : (page.blocks.map (text_block_area clip)).sum = 0 := by
        refine List.sum_eq_zero ?_
        intro x hx
        rcases List.mem_map.mp hx with ⟨a, ha, rfl⟩
        unfold text_block_area
        split_ifs
        · rfl
        · exact hblk a ha
      rw [hz]
      norm_num
    have hdc : drawings_coverage_in_clip page clip = 0 := by
      rw [drawings_coverage_eq]
      have hz : (page.drawings.map (drawing_cov_contrib clip)).sum = 0 := by
        refine List.sum_eq_zero ?_
        intro x hx
        rcases List.mem_map.mp hx with ⟨a, ha, rfl⟩
        obtain ⟨rct, hrct, hnz, hni⟩ := hdraw a ha
        unfold drawing_cov_contrib
        split_ifs
        · rfl
        · rcases a with ⟨or, items, w, f⟩
          cases or with
          | none => rfl
          | some rc =>
            dsimp only
            have : rc = rct := by
              simpa using hrct
            rw [if_pos (le_of_eq (this ▸ Rect.area_zero_of_not_intersects rc clip
              (this ▸ hni)))]
      rw [hz]
      norm_num
    have hseg : count_vector_segments_in page clip = 0 := by
      rw [count_segments_eq_sum]
      have hz : (page.drawings.map (seg_contrib clip)).sum = 0 := by
        refine List.sum_eq_zero ?_
        intro x hx
        rcases List.mem_map.mp hx with ⟨a, ha, rfl⟩
        obtain ⟨rct, hrct, hnz, hni⟩ := hdraw a ha
        rcases a with ⟨or, items, w, f⟩
        have : or = some rct := hrct
        subst this
        unfold seg_contrib
        dsimp only
        rw [if_pos ⟨hnz, hni⟩]
      exact hz
    have hfl : find_largest_image_in_clip page clip = none := by
      unfold find_largest_image_in_clip
      rw [flic_stay_none clip page.images fun img hm => le_of_eq (harea img hm)]
    have hnat : native_raster_metrics extract page clip = none := by
      unfold native_raster_metrics
      rw [hfl]
    have hlen : page.images.length ≠ 0 := fun hh => himg (List.length_eq_zero.mp hh)
    simp only [detect_art_format, hrc, htc, hdc, hseg, hnat]
    norm_num [decide_format_coverage, hlen]

/-- C9 witness: a blank 100 by 100 clip on a page whose image, drawing
and text block all lie entirely outside the clip is labeled has raster. -/
theorem C9_raster_count_page_global_witness :
    (detect_art_format (fun _ => none)
        ⟨⟨0, 0, 400, 400⟩, [⟨3, some ⟨200, 200, 300, 300⟩⟩],
          [⟨some ⟨150, 150, 160, 160⟩, ["l"], 1, true⟩],
          [⟨⟨150, 150, 160, 160⟩, 0⟩]⟩
        ⟨0, 0, 100, 100⟩).1 = "has raster" := by
  refine C9_raster_count_page_global.2 (fun _ => none) _ _ (by simp) ?_ ?_ ?_
  · intro img hm
    have : img = ⟨3, some ⟨200, 200, 300, 300⟩⟩ := by
      simpa using hm
    subst this
    norm_num [image_inter_area, Rect.intersect, Rect.get_area, Rect.width,
      Rect.height, max_def, min_def]
  · intro d hd
    have : d = ⟨some ⟨150, 150, 160, 160⟩, ["l"], 1, true⟩ := by
      simpa using hd
    subst this
    refine ⟨⟨150, 150, 160, 160⟩, rfl, by norm_num [Rect.is_zero], ?_⟩
    norm_num [Rect.intersects, Rect.is_empty, Rect.intersect, max_def, min_def]
  · intro b hb
    have : b = ⟨⟨150, 150, 160, 160⟩, 0⟩ := by
      simpa using hb
    subst this
    norm_num [Rect.intersect, Rect.get_area, Rect.width, Rect.height,
      max_def, min_def]

/-! Claim C10. -/

/-- C10: a drawing that carries no bounding rect bypasses both the clip
test and the large panel skip of the segment counter, so all of its
recognized path operators are counted no matter which clip is analyzed;
the drawing coverage measurer, by contrast, drops such a drawing
entirely. -/
theorem C10_rectless_drawings :
    ∀ (page : Page) (clip clip2 : Rect),
      (∀ d ∈ page.drawings, d.rect = none) →
      count_vector_segments_in page clip =
        (page.drawings.map recognized_count).sum ∧
      count_vector_segments_in page clip = count_vector_segments_in page clip2 ∧
      drawings_coverage_in_clip page clip = 0 := by
  have key : ∀ (page : Page) (clip : Rect),
      (∀ d ∈ page.drawings, d.rect = none) →
      count_vector_segments_in page clip =
        (page.drawings.map recognized_count).sum := by
    intro page clip h
    rw [count_segments_eq_sum]
    have hmap : page.drawings.map (seg_contrib clip) =
        page.drawings.map recognized_count := by
      refine List.map_congr_left ?_
      intro d hd
      have hr := h d hd
      rcases d with ⟨rct, items, w, f⟩
      cases rct with
      | none =>
        unfold seg_contrib
        exact (recognized_count_eq_claim _).symm
      | some rc => simp at hr
    rw [hmap]
  intro page clip clip2 h
  refine ⟨key page clip h, ?_, ?_⟩
  · rw [key page clip h, key page clip2 h]
  · rw [drawings_coverage_eq]
    have hz : (page.drawings.map (drawing_cov_contrib clip)).sum = 0 := by
      refine List.sum_eq_zero ?_
      intro x hx
      rcases List.mem_map.mp hx with ⟨a, ha, rfl⟩
      have hr := h a ha
      unfold drawing_cov_contrib
      split_ifs
      · rfl
      · rcases a with ⟨rct, items, w, f⟩
        cases rct with
        | none => rfl
        | some rc => simp at hr
    rw [hz]
    norm_num

/-- C10 witness: a page whose single drawing has no bounding rect counts
the same two segments for two disjoint clips and contributes nothing to
the drawing coverage. -/
theorem C10_rectless_drawings_witness :
    count_vector_segments_in
        ⟨⟨0, 0, 100, 100⟩, [], [⟨none, ["m", "l"], 1, false⟩], []⟩
        ⟨0, 0, 10, 10⟩ =
      count_vector_segments_in
        ⟨⟨0, 0, 100, 100⟩, [], [⟨none, ["m", "l"], 1, false⟩], []⟩
        ⟨50, 50, 60, 60⟩ ∧
    drawings_coverage_in_clip
        ⟨⟨0, 0, 100, 100⟩, [], [⟨none, ["m", "l"], 1, false⟩], []⟩
        ⟨0, 0, 10, 10⟩ = 0 := by
  have h := C10_rectless_drawings
    ⟨⟨0, 0, 100, 100⟩, [], [⟨none, ["m", "l"], 1, false⟩], []⟩
    ⟨0, 0, 10, 10⟩ ⟨50, 50, 60, 60⟩ (by intro d hd; simpa using congrArg Drawing.rect (by simpa using hd))
  exact ⟨h.2.1, h.2.2⟩

/-! Claim C8. -/

/-- Loop invariant of find_largest_image_in_clip over the processed
prefix l of the image list: the accumulator either still holds nothing,
in which case every processed image has nonpositive intersection area,
or it holds the first processed image of maximal, positive intersection
area, every strictly earlier image having strictly smaller area. -/
def flic_inv (clip : Rect) (l : List Image) :
    Option (ℕ × Rect × Rect) × ℚ → Prop
  | (none, a) => a = 0 ∧ ∀ img ∈ l, image_inter_area clip img ≤ 0
  | (some (x, i, rb), a) =>
      a = i.get_area ∧ 0 < a ∧ x ≠ 0 ∧
      (∃ pre e post, l = pre ++ e :: post ∧ e.xref = x ∧ e.bbox = some rb ∧
        i = rb.intersect clip ∧ ∀ e2 ∈ pre, image_inter_area clip e2 < a) ∧
      ∀ e2 ∈ l, image_inter_area clip e2 ≤ a

theorem flic_inv_nonneg (clip : Rect) (l : List Image)
    (acc : Option (ℕ × Rect × Rect) × ℚ) (h : flic_inv clip l acc) :
    0 ≤ acc.2 := by
  rcases acc with ⟨ob, a⟩
  cases ob with
  | none => exact le_of_eq h.1.symm
  | some p =>
    rcases p with ⟨x, i, rb⟩
    exact le_of_lt h.2.1

theorem flic_inv_all_le (clip : Rect) (l : List Image)
    (acc : Option (ℕ × Rect × Rect) × ℚ) (h : flic_inv clip l acc) :
    ∀ e2 ∈ l, image_inter_area clip e2 ≤ acc.2 := by
  rcases acc with ⟨ob, a⟩
  cases ob with
  | none =>
    intro e2 hm
    exact le_trans (h.2 e2 hm) (le_of_eq h.1.symm)
  | some p =>
    rcases p with ⟨x, i, rb⟩
    exact h.2.2.2.2

theorem flic_inv_extend (clip : Rect) (l : List Image)
    (acc : Option (ℕ × Rect × Rect) × ℚ) (e : Image)
    (h : flic_inv clip l acc) (he : image_inter_area clip e ≤ acc.2) :
    flic_inv clip (l ++ [e]) acc := by
  rcases acc with ⟨ob, a⟩
  cases ob with
  | none =>
    obtain ⟨ha, hall⟩ := h
    refine ⟨ha, ?_⟩
    intro img hm
    rcases List.mem_append.mp hm with hm | hm
    · exact hall img hm
    · rw [List.mem_singleton.mp hm]
      exact le_trans he (le_of_eq ha)
  | some p =>
    rcases p with ⟨x, i, rb⟩
    obtain ⟨ha, hpos, hx, ⟨pre, e0, post, hl, he0x, he0b, hi, hpre⟩, hall⟩ := h
    refine ⟨ha, hpos, hx, ⟨pre, e0, post ++ [e], ?_, he0x, he0b, hi, hpre⟩, ?_⟩
    · rw [hl]
      simp
    · intro e2 hm
      rcases List.mem_append.mp hm with hm | hm
      · exact hall e2 hm
      · rw [List.mem_singleton.mp hm]
        exact he

theorem flic_step_preserve (clip : Rect) (l : List Image)
    (acc : Option (ℕ × Rect × Rect) × ℚ) (e : Image)
    (h : flic_inv clip l acc) :
    flic_inv clip (l ++ [e]) (flic_step clip acc e) := by
  rcases e with ⟨x, b⟩
  by_cases hx : x = 0
  · have hs : flic_step clip acc ⟨x, b⟩ = acc := by
      unfold flic_step
      rw [if_pos hx]
    rw [hs]
    refine flic_inv_extend clip l acc _ h ?_
    have hia : image_inter_area clip ⟨x, b⟩ = 0 := by
      simp [image_inter_area, hx]
    rw [hia]
    exact flic_inv_nonneg clip l acc h
  · cases b with
    | none =>
      have hs : flic_step clip acc ⟨x, none⟩ = acc := by
        unfold flic_step
        rw [if_neg hx]
      rw [hs]
      refine flic_inv_extend clip l acc _ h ?_
      have hia : image_inter_area clip ⟨x, none⟩ = 0 := by
        simp [image_inter_area, hx]
      rw [hia]
      exact flic_inv_nonneg clip l acc h
    | some bb =>
      have hia : image_inter_area clip ⟨x, some bb⟩ =
          (bb.intersect clip).get_area := by
        simp [image_inter_area, hx]
      by_cases hlt : acc.2 < (bb.intersect clip).get_area
      · have hs : flic_step clip acc ⟨x, some bb⟩ =
            (some (x, bb.intersect clip, bb), (bb.intersect clip).get_area) := by
          unfold flic_step
          rw [if_neg hx]
          dsimp only
          rw [if_pos hlt]
        rw [hs]
        refine ⟨rfl, lt_of_le_of_lt (flic_inv_nonneg clip l acc h) hlt, hx,
          ⟨l, ⟨x, some bb⟩, [], by simp, rfl, rfl, rfl, ?_⟩, ?_⟩
        · intro e2 hm
          exact lt_of_le_of_lt (flic_inv_all_le clip l acc h e2 hm) hlt
        · intro e2 hm
          rcases List.mem_append.mp hm with hm | hm
          · exact le_of_lt (lt_of_le_of_lt (flic_inv_all_le clip l acc h e2 hm) hlt)
          · rw [List.mem_singleton.mp hm, hia]
      · have hs : flic_step clip acc ⟨x, some bb⟩ = acc := by
          unfold flic_step
          rw [if_neg hx]
          dsimp only
          rw [if_neg hlt]
        rw [hs]
        refine flic_inv_extend clip l acc _ h ?_
        rw [hia]
        exact not_lt.mp hlt

theorem flic_foldl (clip : Rect) :
    ∀ (l2 l1 : List Image) (acc : Option (ℕ × Rect × Rect) × ℚ),
      flic_inv clip l1 acc →
      flic_inv clip (l1 ++ l2) (l2.foldl (flic_step clip) acc) := by
  intro l2
  induction l2 with
  | nil =>
    intro l1 acc h
    simpa using h
  | cons e t ih =>
    intro l1 acc h
    have h2 := flic_step_preserve clip l1 acc e h
    have h3 := ih (l1 ++ [e]) _ h2
    rw [List.foldl_cons]
    simpa [List.append_assoc] using h3

theorem flic_invariant (page : Page) (clip : Rect) :
    flic_inv clip page.images (page.images.foldl (flic_step clip) (none, 0)) := by
  have h0 : flic_inv clip [] ((none : Option (ℕ × Rect × Rect)), (0:ℚ)) :=
    ⟨rfl, fun img hm => absurd hm (List.not_mem_nil img)⟩
  have h := flic_foldl clip page.images [] (none, 0) h0
  simpa using h

theorem native_dpi_x_nonneg (extract : ℕ → Option (ℕ × ℕ)) (x : ℕ) (i : Rect) :
    0 ≤ (native_info_of extract x i).nativeDpiX ∧
    0 ≤ (native_info_of extract x i).nativeDpiY := by
  unfold native_info_of
  dsimp only
  constructor <;> split_ifs <;>
    first
      | exact le_rfl
      | exact div_nonneg (Nat.cast_nonneg _)
          (div_nonneg (Rect.width_nonneg i) (by norm_num))
      | exact div_nonneg (Nat.cast_nonneg _)
          (div_nonneg (Rect.height_nonneg i) (by norm_num))
      | exact div_nonneg (Nat.cast_nonneg _) le_rfl

theorem native_info_of_spec (extract : ℕ → Option (ℕ × ℕ)) (x : ℕ) (i : Rect)
    (hx : x ≠ 0) :
    (native_info_of extract x i).nativePxW = ((extract x).getD (0, 0)).1 ∧
    (native_info_of extract x i).nativePxH = ((extract x).getD (0, 0)).2 ∧
    (native_info_of extract x i).nativeDpiX =
      (if 0 < i.width then (((extract x).getD (0, 0)).1 : ℚ) / (i.width / 72)
       else 0) ∧
    (native_info_of extract x i).nativeDpiY =
      (if 0 < i.height then (((extract x).getD (0, 0)).2 : ℚ) / (i.height / 72)
       else 0) ∧
    (0 < (native_info_of extract x i).nativeDpiX ∧
        0 < (native_info_of extract x i).nativeDpiY →
      (native_info_of extract x i).nativeDpiMin =
        min (native_info_of extract x i).nativeDpiX
          (native_info_of extract x i).nativeDpiY) ∧
    (¬(0 < (native_info_of extract x i).nativeDpiX ∧
        0 < (native_info_of extract x i).nativeDpiY) →
      (native_info_of extract x i).nativeDpiMin = 0) ∧
    (extract x = none →
      (native_info_of extract x i).nativePxW = 0 ∧
      (native_info_of extract x i).nativePxH = 0 ∧
      (native_info_of extract x i).nativeDpiMin = 0) := by
  obtain ⟨hdxn, hdyn⟩ := native_dpi_x_nonneg extract x i
  refine ⟨?_, ?_, ?_, ?_, ?_, ?_, ?_⟩
  · unfold native_info_of
    dsimp only
    rw [if_pos hx]
  · unfold native_info_of
    dsimp only
    rw [if_pos hx]
  · unfold native_info_of
    dsimp only
    rw [if_pos hx]
    by_cases hw : i.width = 0
    · rw [hw]
      simp
    · have hwpos : 0 < i.width := lt_of_le_of_ne i.width_nonneg (Ne.symm hw)
      rw [if_pos hw, if_pos (by positivity), if_pos hwpos]
  · unfold native_info_of
    dsimp only
    rw [if_pos hx]
    by_cases hw : i.height = 0
    · rw [hw]
      simp
    · have hwpos : 0 < i.height := lt_of_le_of_ne i.height_nonneg (Ne.symm hw)
      rw [if_pos hw, if_pos (by positivity), if_pos hwpos]
  · intro hpos
    show (if (native_info_of extract x i).nativeDpiX ≠ 0 ∧
        (native_info_of extract x i).nativeDpiY ≠ 0 then
        min (native_info_of extract x i).nativeDpiX
          (native_info_of extract x i).nativeDpiY
      else 0) = _
    rw [if_pos ⟨ne_of_gt hpos.1, ne_of_gt hpos.2⟩]
  · intro hneg
    show (if (native_info_of extract x i).nativeDpiX ≠ 0 ∧
        (native_info_of extract x i).nativeDpiY ≠ 0 then
        min (native_info_of extract x i).nativeDpiX
          (native_info_of extract x i).nativeDpiY
      else 0) = 0
    refine if_neg ?_
    rintro ⟨h1, h2⟩
    exact hneg ⟨lt_of_le_of_ne hdxn (Ne.symm h1), lt_of_le_of_ne hdyn (Ne.symm h2)⟩
  · intro hnone
    have hw : (native_info_of extract x i).nativePxW = 0 := by
      unfold native_info_of
      dsimp only
      rw [if_pos hx, hnone]
      rfl
    have hh : (native_info_of extract x i).nativePxH = 0 := by
      unfold native_info_of
      dsimp only
      rw [if_pos hx, hnone]
      rfl
    refine ⟨hw, hh, ?_⟩
    have hdx : (native_info_of extract x i).nativeDpiX = 0 := by
      unfold native_info_of
      dsimp only
      rw [if_pos hx, hnone]
      split_ifs <;> simp
    show (if (native_info_of extract x i).nativeDpiX ≠ 0 ∧
        (native_info_of extract x i).nativeDpiY ≠ 0 then
        min (native_info_of extract x i).nativeDpiX
          (native_info_of extract x i).nativeDpiY
      else 0) = 0
    exact if_neg fun hc => hc.1 hdx

/-- C8: the native resolution estimator contract.  When some image on
the page meets the clip with positive intersection area, the estimator
returns the image of largest intersection area, the first one found on
ties, with nonzero xref; the native metrics record then satisfies the
dpi formulas of the claim: dpiX is the native pixel width over the
intersection width in inches, a zero placed dimension gives dpi 0
instead of a division fault, dpiMin is the minimum of dpiX and dpiY
exactly when both are positive and 0 otherwise, and a decode failure of
the image data degrades to native width and height 0 and dpi 0. -/
theorem C8_native_estimator (extract : ℕ → Option (ℕ × ℕ)) (page : Page)
    (clip : Rect) (hex : ∃ img ∈ page.images, 0 < image_inter_area clip img) :
    ∃ xref inter rb,
      find_largest_image_in_clip page clip = some (xref, inter, rb) ∧
      xref ≠ 0 ∧
      (∃ pre e post, page.images = pre ++ e :: post ∧ e.xref = xref ∧
        e.bbox = some rb ∧ inter = rb.intersect clip ∧
        ∀ e2 ∈ pre, image_inter_area clip e2 < inter.get_area) ∧
      (∀ e2 ∈ page.images, image_inter_area clip e2 ≤ inter.get_area) ∧
      native_raster_metrics extract page clip =
        some (native_info_of extract xref inter) ∧
      (native_info_of extract xref inter).nativePxW =
        ((extract xref).getD (0, 0)).1 ∧
      (native_info_of extract xref inter).nativePxH =
        ((extract xref).getD (0, 0)).2 ∧
      (native_info_of extract xref inter).nativeDpiX =
        (if 0 < inter.width then
          (((extract xref).getD (0, 0)).1 : ℚ) / (inter.width / 72) else 0) ∧
      (native_info_of extract xref inter).nativeDpiY =
        (if 0 < inter.height then
          (((extract xref).getD (0, 0)).2 : ℚ) / (inter.height / 72) else 0) ∧
      (0 < (native_info_of extract xref inter).nativeDpiX ∧
          0 < (native_info_of extract xref inter).nativeDpiY →
        (native_info_of extract xref inter).nativeDpiMin =
          min (native_info_of extract xref inter).nativeDpiX
            (native_info_of extract xref inter).nativeDpiY) ∧
      (¬(0 < (native_info_of extract xref inter).nativeDpiX ∧
          0 < (native_info_of extract xref inter).nativeDpiY) →
        (native_info_of extract xref inter).nativeDpiMin = 0) ∧
      (extract xref = none →
        (native_info_of extract xref inter).nativePxW = 0 ∧
        (native_info_of extract xref inter).nativePxH = 0 ∧
        (native_info_of extract xref inter).nativeDpiMin = 0) := by
  obtain ⟨img0, hm0, hpos0⟩ := hex
  have hinv := flic_invariant page clip
  rcases hres : page.images.foldl (flic_step clip) (none, 0) with ⟨ob, a⟩
  rw [hres] at hinv
  cases ob with
  | none =>
    exact absurd (hinv.2 img0 hm0) (not_le.mpr hpos0)
  | some p =>
    rcases p with ⟨x, i, rb⟩
    obtain ⟨ha, hapos, hx, ⟨pre, e0, post, hl, he0x, he0b, hi, hpre⟩, hall⟩ := hinv
    have hfind : find_largest_image_in_clip page clip = some (x, i, rb) := by
      unfold find_largest_image_in_clip
      rw [hres]
    obtain ⟨f1, f2, f3, f4, f5, f6, f7⟩ := native_info_of_spec extract x i hx
    refine ⟨x, i, rb, hfind, hx,
      ⟨pre, e0, post, hl, he0x, he0b, hi, fun e2 hm => ha ▸ hpre e2 hm⟩,
      fun e2 hm => ha ▸ hall e2 hm, ?_, f1, f2, f3, f4, f5, f6, f7⟩
    unfold native_raster_metrics
    rw [hfind]

/-- Concrete extractor for the C8 witness. -/
def w8_extract : ℕ → Option (ℕ × ℕ) := fun x => if x = 7 then some (300, 150) else none

/-- Concrete page for the C8 witness: one image with xref 7 placed over
the left half of the page. -/
def w8_page : Page := ⟨⟨0, 0, 200, 200⟩, [⟨7, some ⟨0, 0, 100, 50⟩⟩], [], []⟩

/-- Concrete clip for the C8 witness. -/
def w8_clip : Rect := ⟨0, 0, 200, 200⟩

/-- C8 witness: the estimator contract applied at a concrete page, clip
and extractor whose single image has positive intersection area. -/
theorem C8_native_estimator_witness :
    (∃ img ∈ w8_page.images, 0 < image_inter_area w8_clip img) ∧
    (∃ xref inter rb,
      find_largest_image_in_clip w8_page w8_clip = some (xref, inter, rb) ∧
      xref ≠ 0 ∧
      (∃ pre e post, w8_page.images = pre ++ e :: post ∧ e.xref = xref ∧
        e.bbox = some rb ∧ inter = rb.intersect w8_clip ∧
        ∀ e2 ∈ pre, image_inter_area w8_clip e2 < inter.get_area) ∧
      (∀ e2 ∈ w8_page.images, image_inter_area w8_clip e2 ≤ inter.get_area) ∧
      native_raster_metrics w8_extract w8_page w8_clip =
        some (native_info_of w8_extract xref inter) ∧
      (native_info_of w8_extract xref inter).nativePxW =
        ((w8_extract xref).getD (0, 0)).1 ∧
      (native_info_of w8_extract xref inter).nativePxH =
        ((w8_extract xref).getD (0, 0)).2 ∧
      (native_info_of w8_extract xref inter).nativeDpiX =
        (if 0 < inter.width then
          (((w8_extract xref).getD (0, 0)).1 : ℚ) / (inter.width / 72) else 0) ∧
      (native_info_of w8_extract xref inter).nativeDpiY =
        (if 0 < inter.height then
          (((w8_extract xref).getD (0, 0)).2 : ℚ) / (inter.height / 72) else 0) ∧
      (0 < (native_info_of w8_extract xref inter).nativeDpiX ∧
          0 < (native_info_of w8_extract xref inter).nativeDpiY →
        (native_info_of w8_extract xref inter).nativeDpiMin =
          min (native_info_of w8_extract xref inter).nativeDpiX
            (native_info_of w8_extract xref inter).nativeDpiY) ∧
      (¬(0 < (native_info_of w8_extract xref inter).nativeDpiX ∧
          0 < (native_info_of w8_extract xref inter).nativeDpiY) →
        (native_info_of w8_extract xref inter).nativeDpiMin = 0) ∧
      (w8_extract xref = none →
        (native_info_of w8_extract xref inter).nativePxW = 0 ∧
        (native_info_of w8_extract xref inter).nativePxH = 0 ∧
        (native_info_of w8_extract xref inter).nativeDpiMin = 0)) := by
  have hex : ∃ img ∈ w8_page.images, 0 < image_inter_area w8_clip img := by
    refine ⟨⟨7, some ⟨0, 0, 100, 50⟩⟩, by simp [w8_page], ?_⟩
    norm_num [image_inter_area, w8_clip, Rect.intersect, Rect.get_area,
      Rect.width, Rect.height, max_def, min_def]
  exact ⟨hex, C8_native_estimator w8_extract w8_page w8_clip hex⟩

end DetectArt
